import Mathlib

/-!
# Verification of the Caption backend's subtitle engine

A shallow embedding of the subtitle synthesis and timing engine of the
Caption repository (`backend/caption_utils.py` and `backend/main.py`),
with theorems settling the specification's claims about it.

Conventions of the embedding:
* Python floats are modelled as exact rationals (`ℚ`); Python's true
  division `/`, floor division `//` and modulo `%` become rational
  division, `⌊·/·⌋`, and `pyMod`.
* Python strings are modelled as `String` / `List Char`; the string
  operations the code uses (`str.split`, `str.strip`, `str.replace`,
  `str.join`, slicing) are embedded as structurally recursive functions
  so that concrete runs reduce inside the kernel.
* The speech recognizer and the audio loader are external collaborators;
  they enter the embedding as parameters (a per-chunk recognition
  outcome function, and an `Except` value for the audio load).
-/

namespace Caption

/-! ## Python numeric primitives -/

/-- Python `int(x)`: truncation toward zero. -/
def pyInt (q : ℚ) : ℤ := if 0 ≤ q then ⌊q⌋ else -⌊-q⌋

/-- Python `a % b` for floats: `a - b * (a // b)` (floor-style remainder,
in `[0, b)` for `b > 0`). -/
def pyMod (a b : ℚ) : ℚ := a - b * ⌊a / b⌋

/-- Python `a // b` for floats: floor division. -/
def pyFloorDiv (a b : ℚ) : ℤ := ⌊a / b⌋

/-- Python `f"{n:02d}"` for the non-negative integers this code feeds it:
zero-pad to width 2. -/
def pad2 (n : ℤ) : String := if 0 ≤ n ∧ n < 10 then "0" ++ toString n else toString n

/-- Python `f"{n:03d}"` for the non-negative integers this code feeds it:
zero-pad to width 3. -/
def pad3 (n : ℤ) : String :=
  if 0 ≤ n ∧ n < 10 then "00" ++ toString n
  else if 0 ≤ n ∧ n < 100 then "0" ++ toString n
  else toString n

/-! ## `format_timestamp` (caption_utils.py lines 112-119) -/

/-- `format_timestamp(seconds)` from `caption_utils.py`:
`hrs = int(seconds // 3600)`; `mins = int((seconds % 3600) // 60)`;
`secs = seconds % 60`; `millis = int((secs % 1) * 1000)`; `secs = int(secs)`;
rendered as `f"{hrs:02d}:{mins:02d}:{secs:02d},{millis:03d}"`. -/
def format_timestamp (seconds : ℚ) : String :=
  let hrs : ℤ := pyFloorDiv seconds 3600
  let mins : ℤ := pyFloorDiv (pyMod seconds 3600) 60
  let secsQ : ℚ := pyMod seconds 60
  let millis : ℤ := pyInt (pyMod secsQ 1 * 1000)
  let secs : ℤ := pyInt secsQ
  pad2 hrs ++ ":" ++ pad2 mins ++ ":" ++ pad2 secs ++ "," ++ pad3 millis

/-- The timestamp renderer exactly as the specification words it:
identical fields except that milliseconds are **rounded**,
`millis = round((seconds mod 1) * 1000)`, rather than truncated. -/
def format_timestamp_specRounded (seconds : ℚ) : String :=
  let hrs : ℤ := ⌊seconds / 3600⌋
  let mins : ℤ := ⌊pyMod seconds 3600 / 60⌋
  let secs : ℤ := ⌊pyMod seconds 60⌋
  let millis : ℤ := round (pyMod seconds 1 * 1000)
  pad2 hrs ++ ":" ++ pad2 mins ++ ":" ++ pad2 secs ++ "," ++ pad3 millis

/-! ## Python string primitives (structural, kernel-reducible) -/

/-- One step of Python `text.split()` (no separator): accumulate the
current word (reversed) and emit it at each whitespace run boundary;
empty strings are never emitted. -/
def splitWsAcc (acc : List Char) : List Char → List (List Char)
  | [] => if acc = [] then [] else [acc.reverse]
  | c :: cs =>
    if c.isWhitespace then
      if acc = [] then splitWsAcc [] cs else acc.reverse :: splitWsAcc [] cs
    else splitWsAcc (c :: acc) cs

/-- Python `text.split()`: split on whitespace runs, dropping empties. -/
def pySplitWs (s : String) : List String :=
  (splitWsAcc [] s.data).map String.mk

/-- Python `text.strip()`: drop leading and trailing whitespace. -/
def pyStrip (s : String) : String :=
  String.mk (((s.data.dropWhile Char.isWhitespace).reverse.dropWhile Char.isWhitespace).reverse)

/-! ## The Subtitle Segmenter (caption_utils.py lines 52-76)

The per-chunk recognition result is processed by the loop

    words = text.split(); words_per_subtitle = 10
    for j in range(0, len(words), words_per_subtitle):
        word_batch = words[j:j + words_per_subtitle]
        ...

`range(0, N, 10)` is embedded as `batchOffsets N` and the slice
`words[j:j+10]` as `(words.drop j).take 10`. -/

/-- `range(0, n, 10)`: the word offsets `0, 10, 20, ...` below `n`. -/
def batchOffsets (n : ℕ) : List ℕ := (List.range ((n + 9) / 10)).map (· * 10)

/-- The consecutive 10-word batches `words[j:j+10]` for `j` in
`range(0, len(words), 10)`. -/
def wordBatches (words : List α) : List (List α) :=
  (batchOffsets words.length).map fun j => (words.drop j).take 10

/-- A cue before timestamp rendering: the numeric `batch_start` /
`batch_end` and the joined batch text computed at lines 61-68. -/
structure RawCue where
  batch_start : ℚ
  batch_end : ℚ
  text : String
  deriving DecidableEq, Repr

/-- Lines 61-68 of `caption_utils.py` for one recognized chunk, given the
chunk's start time, its duration `chunk_duration = len(chunk)/1000`, the
total media duration and the recognized words.  `end_time` is
`min(start_time + chunk_duration, total_duration)` (line 55), and for
batch offset `j`:
`batch_start = start_time + (j / len(words)) * chunk_duration`,
`batch_end = min(start_time + ((j + len(word_batch)) / len(words)) * chunk_duration, end_time)`. -/
def utteranceCues (start_time chunk_duration total_duration : ℚ)
    (words : List String) : List RawCue :=
  let end_time := min (start_time + chunk_duration) total_duration
  (batchOffsets words.length).map fun j =>
    let word_batch := (words.drop j).take 10
    { batch_start := start_time + ((j : ℚ) / (words.length : ℚ)) * chunk_duration
      batch_end := min
        (start_time + (((j : ℚ) + (word_batch.length : ℚ)) / (words.length : ℚ)) * chunk_duration)
        end_time
      text := String.intercalate " " word_batch }

/-- Lines 52-76 for one chunk's recognized text: the batching runs only
when the stripped text is non-empty (`if text.strip():`). -/
def processChunkText (start_time chunk_duration total_duration : ℚ)
    (text : String) : List RawCue :=
  if pyStrip text ≠ "" then
    utteranceCues start_time chunk_duration total_duration (pySplitWs text)
  else []

/-- A serialized subtitle entry as appended at lines 70-75: a 1-based
index and the two timestamps already rendered by `format_timestamp`
(the dict keys `start` and `end` are embedded as `start` and `stop`). -/
structure Sub where
  index : ℕ
  start : String
  stop : String
  text : String
  deriving DecidableEq, Repr

/-- Timestamp rendering and 1-based global numbering of the raw cues
(`subtitle_index` starts at 1 and increments per appended subtitle). -/
def mkSubs (cues : List RawCue) : List Sub :=
  cues.enum.map fun p =>
    { index := p.1 + 1
      start := format_timestamp p.2.batch_start
      stop := format_timestamp p.2.batch_end
      text := p.2.text }

/-! ## Chunking, recognition outcomes and `generate_subtitles` -/

/-- Outcome of `recognizer.recognize_google` on one chunk: recognized
text, `sr.UnknownValueError`, or `sr.RequestError` (the transcript
source unreachable). -/
inductive RecogResult where
  | ok (text : String)
  | unknownValue
  | requestErr (msg : String)

/-- `range(0, len(audio), 3000)`: the chunk start offsets in
milliseconds (line 34). -/
def chunkStartsMs (lenMs : ℕ) : List ℕ := (List.range ((lenMs + 2999) / 3000)).map (· * 3000)

/-- `len(audio[i:i+3000]) / 1000`: the duration in seconds of the chunk
starting at millisecond `i`. -/
def chunkDur (lenMs i : ℕ) : ℚ := (min 3000 (lenMs - i) : ℕ) / 1000

/-- The cue list accumulated over all chunks of the audio (lines 41-86):
a chunk whose recognition raises `UnknownValueError` or `RequestError`
contributes nothing (the request error is only printed, line 82). -/
def processChunks (lenMs : ℕ) (recog : ℕ → RecogResult) : List RawCue :=
  (chunkStartsMs lenMs).flatMap fun i =>
    match recog i with
    | .ok text => processChunkText ((i : ℚ) / 1000) (chunkDur lenMs i) ((lenMs : ℚ) / 1000) text
    | .unknownValue => []
    | .requestErr _ => []

/-- Lines 89-93: the SRT serialization
`f"{index}\n{start} --> {end}\n{text}\n\n"` concatenated over the subs. -/
def serializeSubs (subs : List Sub) : String :=
  String.join (subs.map fun s =>
    toString s.index ++ "\n" ++ s.start ++ " --> " ++ s.stop ++ "\n" ++ s.text ++ "\n\n")

/-- The fallback document written at lines 96-100 when no subtitles were
generated. -/
def noSpeechDoc : String := "1\n00:00:00,000 --> 00:00:05,000\nNo speech detected in video\n\n"

/-- The document written by the outer exception handler (lines 102-107). -/
def errorDoc (msg : String) : String :=
  "1\n00:00:00,000 --> 00:00:05,000\nError generating captions: " ++ msg ++ "\n\n"

/-- `generate_subtitles` (lines 21-109), abstracted over its external
collaborators: `load` is the outcome of `AudioSegment.from_wav` (an
exception there reaches the outer handler and yields the error
document; on success it gives the audio length in milliseconds), and
`recog` gives each chunk's recognition outcome.  On the success path
the final file content is the serialization of the generated subs, or
the no-speech fallback document when none were generated. -/
def generate_subtitles (load : Except String ℕ) (recog : ℕ → RecogResult) : String :=
  match load with
  | .error e => errorDoc e
  | .ok lenMs =>
    let subs := mkSubs (processChunks lenMs recog)
    if subs = [] then noSpeechDoc else serializeSubs subs

/-! ## The preview parser (main.py lines 82-103) -/

/-- Python `content.split('\n\n')` (keeps empties, leftmost
non-overlapping matches), via an accumulator for the current piece. -/
def splitNNAcc (acc : List Char) : List Char → List (List Char)
  | [] => [acc.reverse]
  | '\n' :: '\n' :: cs => acc.reverse :: splitNNAcc [] cs
  | c :: cs => splitNNAcc (c :: acc) cs

/-- Python `block.split('\n')` (keeps empties). -/
def splitNlAcc (acc : List Char) : List Char → List (List Char)
  | [] => [acc.reverse]
  | c :: cs => if c = '\n' then acc.reverse :: splitNlAcc [] cs else splitNlAcc (c :: acc) cs

/-- Python `line.split(' --> ')` (keeps empties). -/
def splitArrowAcc (acc : List Char) : List Char → List (List Char)
  | [] => [acc.reverse]
  | ' ' :: '-' :: '-' :: '>' :: ' ' :: cs => acc.reverse :: splitArrowAcc [] cs
  | c :: cs => splitArrowAcc (c :: acc) cs

/-- One preview entry as built at lines 90-95 of `main.py`. -/
structure PreviewEntry where
  index : String
  time : String
  start : String
  text : String
  deriving DecidableEq, Repr

/-- Lines 88-95: a block is kept only when it has at least 3 lines;
line 0 is the index, line 1 the time range (also split on `" --> "` to
recover the start), and the remaining lines are joined with a single
space. -/
def parseBlock (block : String) : Option PreviewEntry :=
  let lines := (splitNlAcc [] block.data).map String.mk
  if 3 ≤ lines.length then
    some { index := lines.getD 0 ""
           time := lines.getD 1 ""
           start := String.mk ((splitArrowAcc [] (lines.getD 1 "").data).headD [])
           text := String.intercalate " " (lines.drop 2) }
  else none

/-- The preview parse of lines 82-103: strip the content, split on
`"\n\n"`, keep the well-formed blocks in order, and return at most the
first 50 entries (`subtitles[:50]`). -/
def parsePreview (content : String) : List PreviewEntry :=
  (((splitNNAcc [] (pyStrip content).data).map String.mk).filterMap parseBlock).take 50

/-! ## Subtitle path escaping in `burn_subtitles`
(caption_utils.py line 126) -/

/-- `str(subtitle_path).replace('\\', '/').replace(':', '\\\\:')`: each
backslash becomes a forward slash, then each colon becomes the three
characters backslash-backslash-colon. -/
def escapeChars (cs : List Char) : List Char :=
  (cs.map fun c => if c = '\\' then '/' else c).flatMap fun c =>
    if c = ':' then ['\\', '\\', ':'] else [c]

/-- The escaped subtitle path embedded in the filter argument. -/
def escapeSubtitlePath (p : String) : String := String.mk (escapeChars p.data)

/-- The `vf` filter argument `f"subtitles={subtitle_str}"` (line 132). -/
def vfArg (p : String) : String := "subtitles=" ++ escapeSubtitlePath p

/-- Every delimiter character (`:` or `\`) occurs only inside the escape
sequence backslash-backslash-colon; any other character is a
non-delimiter.  This is the "no unescaped delimiter" shape of a string
embedded in the filter. -/
inductive WellEscaped : List Char → Prop
  | nil : WellEscaped []
  | ord {c : Char} (h1 : c ≠ ':') (h2 : c ≠ '\\') {cs : List Char} :
      WellEscaped cs → WellEscaped (c :: cs)
  | esc {cs : List Char} : WellEscaped cs → WellEscaped ('\\' :: '\\' :: ':' :: cs)

/-! ## Session directory resolution (main.py lines 25-29) -/

/-- `session_id.replace("/", "")`: remove every `/` character. -/
def get_session_dir_safeId (session_id : String) : String :=
  String.mk (session_id.data.filter (· ≠ '/'))

/-- `TEMP_DIR / safe_id` as path components relative to the working
directory (`TEMP_DIR = Path("temp")`); `safe_id` contains no `/`, so it
is a single component. -/
def sessionDirComponents (session_id : String) : List String :=
  ["temp", get_session_dir_safeId session_id]

/-- Filesystem resolution of a relative component list: `.` and empty
components vanish, `..` pops the last component (at the working
directory it stays at the working directory). -/
def resolveComponents (comps : List String) : List String :=
  comps.foldl
    (fun acc c =>
      if c = "" ∨ c = "." then acc
      else if c = ".." then acc.dropLast
      else acc ++ [c])
    []

/-! ## The burn call in `generate_captioned_video` (main.py line 126,
caption_utils.py line 122) -/

/-- The parameters of `def burn_subtitles(video_path, subtitle_path,
output_dir)` in `caption_utils.py`: no defaults, no varargs. -/
def burn_subtitles_params : List String := ["video_path", "subtitle_path", "output_dir"]

/-- The positional arguments passed at the call site
`burn_subtitles(video_path, subtitle_path, session_folder, font_size,
font_color)` in `generate_captioned_video`. -/
def generate_captioned_video_burn_args : List String :=
  ["video_path", "subtitle_path", "session_folder", "font_size", "font_color"]

/-- A Python positional call binds iff the argument count equals the
parameter count (for a function with no defaults and no varargs);
otherwise the call raises `TypeError` before the body runs. -/
def pyCallBinds (params args : List String) : Bool := args.length = params.length

/-! ## Helper lemmas about the word batching -/

lemma batchOffsets_zero : batchOffsets 0 = [] := rfl

lemma mem_batchOffsets_lt {n j : ℕ} (h : j ∈ batchOffsets n) : j < n := by
  simp only [batchOffsets, List.mem_map, List.mem_range] at h
  obtain ⟨i, hi, rfl⟩ := h
  omega

lemma wordBatches_nil : wordBatches ([] : List α) = [] := by
  simp [wordBatches, batchOffsets]

lemma wordBatches_cons (l : List α) (h : l ≠ []) :
    wordBatches l = l.take 10 :: wordBatches (l.drop 10) := by
  have hn : 0 < l.length := List.length_pos.mpr h
  have hk : (l.length + 9) / 10 = ((l.drop 10).length + 9) / 10 + 1 := by
    rw [List.length_drop]; omega
  unfold wordBatches batchOffsets
  rw [hk, List.range_succ_eq_map]
  simp only [List.map_cons, List.map_map, Nat.zero_mul, List.drop_zero, List.cons.injEq]
  refine ⟨trivial, ?_⟩
  apply List.map_congr_left
  intro i _
  simp only [Function.comp]
  rw [List.drop_drop]
  have h10 : Nat.succ i * 10 = 10 + i * 10 := by omega
  rw [h10]

lemma wordBatches_flatten (l : List α) : (wordBatches l).flatten = l := by
  by_cases h : l = []
  · subst h; rw [wordBatches_nil]; rfl
  · rw [wordBatches_cons l h, List.flatten_cons, wordBatches_flatten (l.drop 10)]
    exact List.take_append_drop 10 l
termination_by l.length
decreasing_by
  simp only [List.length_drop]
  have : 0 < l.length := List.length_pos.mpr h
  omega

lemma wordBatches_sizes (l : List α) (b : List α) (hb : b ∈ wordBatches l) :
    b ≠ [] ∧ b.length ≤ 10 := by
  by_cases h : l = []
  · subst h; simp [wordBatches_nil] at hb
  · rw [wordBatches_cons l h] at hb
    rcases List.mem_cons.mp hb with h1 | h1
    · subst h1
      refine ⟨?_, by simp [List.length_take]⟩
      simp only [ne_eq, List.take_eq_nil_iff]
      push_neg
      exact ⟨by omega, h⟩
    · exact wordBatches_sizes (l.drop 10) b h1
termination_by l.length
decreasing_by
  simp only [List.length_drop]
  have : 0 < l.length := List.length_pos.mpr h
  omega

/-- **C2.** For every recognized text, splitting it into
whitespace-delimited words and partitioning them into consecutive
batches of at most 10 words preserves word order (the flattening of the
batches, in order, is exactly the original word sequence, with no word
duplicated or omitted), and every batch is non-empty with at most 10
words (only the last may be shorter). -/
theorem word_batching_reconstructs (text : String) :
    (wordBatches (pySplitWs text)).flatten = pySplitWs text ∧
    ∀ b ∈ wordBatches (pySplitWs text), b ≠ [] ∧ b.length ≤ 10 :=
  ⟨wordBatches_flatten (pySplitWs text), fun b hb => wordBatches_sizes _ b hb⟩

/-- **C1.** For an utterance spanning `[s, s+d]` (so that
`end_time = s + d`, which holds for every chunk since chunks partition
the audio, `s + d ≤ total`), the batch beginning at word offset `j` out
of `N` words is assigned `batch_start = s + (j/N)*d` and
`batch_end = min (s + ((j + batch_length)/N)*d) (s + d)`; in particular
the 11-word utterance spanning 0 to 3 seconds yields exactly two cues,
`(0, 30/11)` (`30/11 ≈ 2.727`) and `(30/11, 3)`. -/
theorem segmenter_proportional_timing (s d t : ℚ) (words : List String)
    (ht : s + d ≤ t) :
    (utteranceCues s d t words =
      (batchOffsets words.length).map fun j =>
        { batch_start := s + ((j : ℚ) / (words.length : ℚ)) * d
          batch_end := min
            (s + (((j : ℚ) + ((min 10 (words.length - j) : ℕ) : ℚ)) / (words.length : ℚ)) * d)
            (s + d)
          text := String.intercalate " " ((words.drop j).take 10) }) ∧
    processChunkText 0 3 3 "alpha beta gamma delta epsilon zeta eta theta iota kappa lambda" =
      [{ batch_start := 0, batch_end := 30/11,
         text := "alpha beta gamma delta epsilon zeta eta theta iota kappa" },
       { batch_start := 30/11, batch_end := 3, text := "lambda" }] := by
  constructor
  · simp only [utteranceCues]
    apply List.map_congr_left
    intro j hj
    simp only [List.length_take, List.length_drop, min_eq_left ht]
  · have hs : (pyStrip "alpha beta gamma delta epsilon zeta eta theta iota kappa lambda" ≠ "") := by
      decide
    have h : pySplitWs "alpha beta gamma delta epsilon zeta eta theta iota kappa lambda" =
        ["alpha", "beta", "gamma", "delta", "epsilon", "zeta", "eta", "theta", "iota",
         "kappa", "lambda"] := rfl
    rw [processChunkText, if_pos hs, h]
    have hb : batchOffsets 11 = [0, 10] := rfl
    simp [utteranceCues, hb, RawCue.mk.injEq]
    norm_num [min_def]
    decide

/-- **C1 (witness).** The theorem applied at the utterance of the
specification's worked example. -/
theorem segmenter_proportional_timing_witness :
    (0 : ℚ) + 3 ≤ 3 ∧
    processChunkText 0 3 3 "alpha beta gamma delta epsilon zeta eta theta iota kappa lambda" =
      [{ batch_start := 0, batch_end := 30/11,
         text := "alpha beta gamma delta epsilon zeta eta theta iota kappa" },
       { batch_start := 30/11, batch_end := 3, text := "lambda" }] :=
  ⟨by norm_num,
    (segmenter_proportional_timing 0 3 3
      ["alpha", "beta", "gamma", "delta", "epsilon", "zeta", "eta", "theta", "iota",
       "kappa", "lambda"] (by norm_num)).2⟩

/-- **C3 (amended).** Every cue produced from an utterance with positive
duration satisfies `batch_start < batch_end` as exact numbers.  (The
code contains no minimum-duration extension; the companion
counterexample shows the rendered timestamps can still collapse.) -/
theorem segmenter_start_lt_end (s d t : ℚ) (hd : 0 < d) (ht : s + d ≤ t)
    (words : List String) (c : RawCue) (hc : c ∈ utteranceCues s d t words) :
    c.batch_start < c.batch_end := by
  simp only [utteranceCues, List.mem_map] at hc
  obtain ⟨j, hj, rfl⟩ := hc
  have hjn : j < words.length := mem_batchOffsets_lt hj
  have hN : (0 : ℚ) < (words.length : ℚ) := by
    have : 0 < words.length := by omega
    exact_mod_cast this
  have hlb : 1 ≤ ((words.drop j).take 10).length := by
    simp only [List.length_take, List.length_drop]
    omega
  have hlbQ : (1 : ℚ) ≤ (((words.drop j).take 10).length : ℚ) := by exact_mod_cast hlb
  have hjQ : (j : ℚ) < (words.length : ℚ) := by exact_mod_cast hjn
  simp only
  rw [min_eq_left ht]
  apply lt_min
  · have hnum : (j : ℚ) < (j : ℚ) + (((words.drop j).take 10).length : ℚ) := by linarith
    have hdiv : (j : ℚ) / (words.length : ℚ) <
        ((j : ℚ) + (((words.drop j).take 10).length : ℚ)) / (words.length : ℚ) :=
      (div_lt_div_iff_of_pos_right hN).mpr hnum
    linarith [mul_lt_mul_of_pos_right hdiv hd]
  · have h1 : (j : ℚ) / (words.length : ℚ) < 1 := (div_lt_one hN).mpr hjQ
    have h2 : (j : ℚ) / (words.length : ℚ) * d < 1 * d := mul_lt_mul_of_pos_right h1 hd
    linarith

/-- **C3 (witness).** The theorem applied to the single-batch utterance
`(0, 3, ["hi"])`, whose only cue is `(0, 3, "hi")`. -/
theorem segmenter_start_lt_end_witness :
    (0 : ℚ) < 3 ∧ (0 : ℚ) + 3 ≤ 3 ∧
    ({ batch_start := 0, batch_end := 3, text := "hi" } : RawCue).batch_start <
      ({ batch_start := 0, batch_end := 3, text := "hi" } : RawCue).batch_end :=
  ⟨by norm_num, by norm_num,
    segmenter_start_lt_end 0 3 3 (by norm_num) (by norm_num) ["hi"]
      { batch_start := 0, batch_end := 3, text := "hi" }
      (by
        have hb : batchOffsets 1 = [0] := rfl
        simp [utteranceCues, hb, RawCue.mk.injEq]
        decide)⟩

/-- **C3 (counterexample).** The code performs no minimum-duration
extension: for the 20-word utterance of a 1-millisecond chunk starting
at 0, the first emitted subtitle has its rendered start equal to its
rendered end (`00:00:00,000` both), a degenerate zero-length cue at the
precision of the subtitle file, even though the exact numbers satisfy
`batch_start < batch_end` (`0 < 1/2000`). -/
theorem degenerate_cue_emitted :
    mkSubs (utteranceCues 0 (1/1000) (1/1000) (List.replicate 20 "w")) =
      [{ index := 1, start := "00:00:00,000", stop := "00:00:00,000",
         text := "w w w w w w w w w w" },
       { index := 2, start := "00:00:00,000", stop := "00:00:00,001",
         text := "w w w w w w w w w w" }] ∧
    (0 : ℚ) < 1/2000 := by
  refine ⟨?_, by norm_num⟩
  have e1 : utteranceCues 0 (1/1000) (1/1000) (List.replicate 20 "w") =
      [{ batch_start := 0, batch_end := 1/2000, text := "w w w w w w w w w w" },
       { batch_start := 1/2000, batch_end := 1/1000, text := "w w w w w w w w w w" }] := by
    have hb : batchOffsets 20 = [0, 10] := rfl
    simp [utteranceCues, hb, RawCue.mk.injEq]
    norm_num [min_def]
    decide
  rw [e1]
  have f0 : format_timestamp 0 = "00:00:00,000" := by
    norm_num [format_timestamp, pyFloorDiv, pyMod, pyInt, pad2, pad3]; rfl
  have f1 : format_timestamp (1/2000) = "00:00:00,000" := by
    norm_num [format_timestamp, pyFloorDiv, pyMod, pyInt, pad2, pad3]; rfl
  have f2 : format_timestamp (1/1000) = "00:00:00,001" := by
    norm_num [format_timestamp, pyFloorDiv, pyMod, pyInt, pad2, pad3]; rfl
  simp only [mkSubs, List.enum, List.enumFrom, List.map]
  rw [f0, f1, f2]

/-- Chunks partition the audio, so every chunk's span lies within the
media: for any chunk start `i`, `i/1000 + chunk_duration ≤
total_duration`.  This discharges, for every chunk the pipeline ever
produces, the span hypothesis of the timing theorems above. -/
lemma chunk_within_audio (lenMs i : ℕ) (hi : i ∈ chunkStartsMs lenMs) :
    (i : ℚ) / 1000 + chunkDur lenMs i ≤ (lenMs : ℚ) / 1000 := by
  have hil : i < lenMs := by
    simp only [chunkStartsMs, List.mem_map, List.mem_range] at hi
    obtain ⟨k, hk, rfl⟩ := hi
    omega
  have hnat : i + min 3000 (lenMs - i) ≤ lenMs := by omega
  unfold chunkDur
  rw [div_add_div_same]
  gcongr
  exact_mod_cast hnat

/-! ## Timestamp rendering lemmas -/

lemma pyMod_eq_mul_fract (a b : ℚ) (hb : b ≠ 0) : pyMod a b = b * Int.fract (a / b) := by
  unfold pyMod Int.fract
  rw [mul_sub, mul_comm b (a / b), div_mul_cancel₀ a hb]

lemma pyMod_nonneg (a b : ℚ) (hb : 0 < b) : 0 ≤ pyMod a b := by
  rw [pyMod_eq_mul_fract a b hb.ne.symm]
  exact mul_nonneg hb.le (Int.fract_nonneg _)

lemma pyMod_one_comp (q : ℚ) : pyMod (pyMod q 60) 1 = pyMod q 1 := by
  unfold pyMod
  simp only [div_one, one_mul]
  have h60 : (60 : ℚ) * (⌊q / 60⌋ : ℚ) = ((60 * ⌊q / 60⌋ : ℤ) : ℚ) := by push_cast; ring
  rw [h60, Int.floor_sub_int]
  push_cast
  ring

lemma pyInt_of_nonneg (q : ℚ) (h : 0 ≤ q) : pyInt q = ⌊q⌋ := if_pos h

/-- **C4 (amended).** For every non-negative seconds value the renderer
produces `HH:MM:SS,mmm` with `hrs = ⌊seconds/3600⌋`,
`mins = ⌊(seconds mod 3600)/60⌋`, `secs = ⌊seconds mod 60⌋` and
`millis = ⌊(seconds mod 1) * 1000⌋` — milliseconds are **truncated**,
not rounded — zero-padded to 2/2/2/3 digits. -/
theorem format_timestamp_truncates (q : ℚ) (_hq : 0 ≤ q) :
    format_timestamp q =
      pad2 ⌊q / 3600⌋ ++ ":" ++ pad2 ⌊pyMod q 3600 / 60⌋ ++ ":" ++
        pad2 ⌊pyMod q 60⌋ ++ "," ++ pad3 ⌊pyMod q 1 * 1000⌋ := by
  have h60 : 0 ≤ pyMod q 60 := pyMod_nonneg q 60 (by norm_num)
  have hm : 0 ≤ pyMod (pyMod q 60) 1 * 1000 :=
    mul_nonneg (pyMod_nonneg _ 1 one_pos) (by norm_num)
  simp only [format_timestamp, pyFloorDiv]
  rw [pyInt_of_nonneg _ h60, pyInt_of_nonneg _ hm, pyMod_one_comp]

/-- **C4 (witness).** The amended theorem applied at `7322.5` seconds
(`02:02:02,500`). -/
theorem format_timestamp_truncates_witness :
    (0 : ℚ) ≤ 14645/2 ∧
    format_timestamp (14645/2) =
      pad2 ⌊(14645/2 : ℚ) / 3600⌋ ++ ":" ++ pad2 ⌊pyMod (14645/2) 3600 / 60⌋ ++ ":" ++
        pad2 ⌊pyMod (14645/2 : ℚ) 60⌋ ++ "," ++ pad3 ⌊pyMod (14645/2 : ℚ) 1 * 1000⌋ :=
  ⟨by norm_num, format_timestamp_truncates (14645/2) (by norm_num)⟩

/-- **C4 (counterexample).** At `seconds = 3/2000 = 0.0015` the code
renders `00:00:00,001` (truncation) while the claimed
`millis = round((seconds mod 1) * 1000)` would render `00:00:00,002`:
the claim's rounding rule does not match the code. -/
theorem format_timestamp_rounding_differs :
    format_timestamp (3/2000) = "00:00:00,001" ∧
    format_timestamp_specRounded (3/2000) = "00:00:00,002" ∧
    format_timestamp (3/2000) ≠ format_timestamp_specRounded (3/2000) := by
  refine ⟨?_, ?_, ?_⟩
  · norm_num [format_timestamp, pyFloorDiv, pyMod, pyInt, pad2, pad3]; rfl
  · norm_num [format_timestamp_specRounded, pyMod, pad2, pad3, round_eq]; rfl
  · norm_num [format_timestamp, format_timestamp_specRounded, pyFloorDiv, pyMod, pyInt,
      pad2, pad3, round_eq]
    decide

/-! ## Fallback policy and error handling -/

lemma flatMap_const_nil (l : List ℕ) : (l.flatMap fun _ => ([] : List RawCue)) = [] := by
  induction l with
  | nil => rfl
  | cons a as ih => simp [List.flatMap_cons, ih]

/-- **C5 (counterexample).** With the audio loaded (3000 ms, one chunk)
and the recognizer raising its request error (`sr.RequestError`,
transcript source unreachable), the resulting document is the
`No speech detected in video` fallback, **not** the
`Error generating captions: <message>` failure cue the claim requires:
the request error is only printed (line 82) and never reaches the error
path. -/
theorem request_error_not_propagated :
    generate_subtitles (.ok 3000) (fun _ => .requestErr "boom") = noSpeechDoc ∧
    generate_subtitles (.ok 3000) (fun _ => .requestErr "boom") ≠ errorDoc "boom" := by
  have hp : processChunks 3000 (fun _ => .requestErr "boom") = [] := rfl
  constructor
  · simp [generate_subtitles, hp, mkSubs]
  · simp only [generate_subtitles, hp, mkSubs]
    decide

/-- **C5 (amended).** The recognizer's request error never aborts the
request, but it is swallowed locally (printed, line 82), not propagated
as a failure cue: when every chunk hits the request error the document
is the `No speech detected in video` fallback for any audio length and
any message; the `Error generating captions` cue is produced exactly by
the outer exception handler (e.g. the audio failing to load). -/
theorem request_error_swallowed (lenMs : ℕ) (msg : String) :
    generate_subtitles (.ok lenMs) (fun _ => .requestErr msg) = noSpeechDoc ∧
    generate_subtitles (.error msg) (fun _ => .requestErr msg) = errorDoc msg := by
  constructor
  · have hp : processChunks lenMs (fun _ => .requestErr msg) = [] := by
      simp only [processChunks]
      exact flatMap_const_nil _
    simp [generate_subtitles, hp, mkSubs]
  · rfl

/-- **C6.** When transcription succeeds but yields zero cues the written
document is exactly the single fallback cue (index 1, `00:00:00,000` to
`00:00:05,000`, text `No speech detected in video`, as its own parse
confirms), so the document is never empty; when at least one cue was
produced the serialized cue list is emitted unchanged. -/
theorem fallback_policy (lenMs : ℕ) (recog : ℕ → RecogResult) :
    (processChunks lenMs recog = [] → generate_subtitles (.ok lenMs) recog = noSpeechDoc) ∧
    (processChunks lenMs recog ≠ [] →
      generate_subtitles (.ok lenMs) recog =
        serializeSubs (mkSubs (processChunks lenMs recog))) ∧
    parsePreview noSpeechDoc =
      [{ index := "1", time := "00:00:00,000 --> 00:00:05,000",
         start := "00:00:00,000", text := "No speech detected in video" }] := by
  refine ⟨?_, ?_, ?_⟩
  · intro h
    simp [generate_subtitles, h, mkSubs]
  · intro h
    have hne : mkSubs (processChunks lenMs recog) ≠ [] := by
      have hl : (mkSubs (processChunks lenMs recog)).length =
          (processChunks lenMs recog).length := by simp [mkSubs]
      intro he
      rw [he] at hl
      exact h (List.eq_nil_of_length_eq_zero hl.symm)
    simp only [generate_subtitles]
    rw [if_neg hne]
  · decide

/-- **C6 (witness).** The theorem applied to a recognizer that never
understands speech (fallback case) and to one that recognizes
`"hello there"` in the single chunk (pass-through case). -/
theorem fallback_policy_witness :
    generate_subtitles (.ok 3000) (fun _ => .unknownValue) = noSpeechDoc ∧
    generate_subtitles (.ok 3000) (fun _ => .ok "hello there") =
      serializeSubs (mkSubs (processChunks 3000 (fun _ => .ok "hello there"))) :=
  ⟨(fallback_policy 3000 (fun _ => .unknownValue)).1 rfl,
   (fallback_policy 3000 (fun _ => .ok "hello there")).2.1 (by
      intro he
      have hlen : (processChunks 3000 (fun _ => .ok "hello there")).length = 1 := rfl
      rw [he] at hlen
      exact absurd hlen (by decide))⟩

/-- **C7.** The preview parser returns at most 50 entries for every
input, and on the text with a 2-line malformed block sandwiched between
two well-formed blocks it yields exactly the two well-formed cues in
order — line 0 as index, line 1 as the time range, the remaining lines
joined with a single space as text — silently dropping the malformed
block.  (The parser is a total function of the input text: it never
raises.) -/
theorem preview_parser_tolerant (content : String) :
    (parsePreview content).length ≤ 50 ∧
    parsePreview ("1\n00:00:00,000 --> 00:00:01,000\nhello\nworld\n\n" ++
        "bad block\nonly two lines\n\n" ++
        "3\n00:00:02,000 --> 00:00:03,000\nbye") =
      [{ index := "1", time := "00:00:00,000 --> 00:00:01,000",
         start := "00:00:00,000", text := "hello world" },
       { index := "3", time := "00:00:02,000 --> 00:00:03,000",
         start := "00:00:02,000", text := "bye" }] :=
  ⟨List.length_take_le 50 _, by decide⟩

/-- **C8.** `generate_captioned_video` passes five positional arguments
(`video_path, subtitle_path, session_folder, font_size, font_color`) to
`burn_subtitles`, whose definition takes exactly three parameters with
no defaults and no varargs: the call cannot bind and raises `TypeError`
before any burning happens, so the style is never applied and no output
filename is returned. -/
theorem burn_call_arity_mismatch :
    pyCallBinds burn_subtitles_params generate_captioned_video_burn_args = false ∧
    burn_subtitles_params.length = 3 ∧
    generate_captioned_video_burn_args.length = 5 := by
  decide

/-- **C9.** After `burn_subtitles`'s escaping, the subtitle path
embedded in the `subtitles=` filter string contains no unescaped
delimiter character: every colon appears only as the final character of
the escape sequence backslash-backslash-colon, and every backslash
appears only inside that escape sequence (original backslashes having
been replaced by `/`, which is not a delimiter). -/
theorem subtitle_path_escaped (p : String) :
    WellEscaped (escapeSubtitlePath p).data := by
  have key : ∀ cs : List Char, (∀ c ∈ cs, c ≠ '\\') →
      WellEscaped (cs.flatMap fun c => if c = ':' then ['\\', '\\', ':'] else [c]) := by
    intro cs
    induction cs with
    | nil => intro _; exact WellEscaped.nil
    | cons c rest ih =>
      intro h
      rw [List.flatMap_cons]
      by_cases hc : c = ':'
      · subst hc
        simp only [if_pos rfl]
        exact WellEscaped.esc (ih fun x hx => h x (List.mem_cons_of_mem _ hx))
      · rw [if_neg hc]
        exact WellEscaped.ord hc (h c (List.mem_cons_self _ _))
          (ih fun x hx => h x (List.mem_cons_of_mem _ hx))
  show WellEscaped (escapeChars p.data)
  unfold escapeChars
  apply key
  intro c hc
  rcases List.mem_map.mp hc with ⟨c0, _, rfl⟩
  by_cases h0 : c0 = '\\'
  · rw [if_pos h0]; decide
  · rw [if_neg h0]; exact h0

/-- **C10 (counterexample).** The session identifier `".."` contains no
`/`, survives `replace("/", "")` unchanged, and the joined path
`temp/..` resolves to the parent of the temp directory (the working
directory, here the empty component list) — not to a direct child of
`temp`: the sanitization does not prevent escaping the temp directory. -/
theorem session_dir_escape :
    get_session_dir_safeId ".." = ".." ∧
    sessionDirComponents ".." = ["temp", ".."] ∧
    resolveComponents (sessionDirComponents "..") = [] := by
  decide

/-- **C10 (amended).** The sanitized identifier never contains `/`, so
identifiers with `/` (or `../` as a multi-component sequence) cannot add
extra path components; but the resolved directory is a direct child of
`temp` only when the sanitized identifier is not `""`, `"."` or `".."`
(the bare `".."` escapes, see the counterexample). -/
theorem session_dir_sanitized (sid : String) :
    (∀ c ∈ (get_session_dir_safeId sid).data, c ≠ '/') ∧
    (get_session_dir_safeId sid ≠ "" → get_session_dir_safeId sid ≠ "." →
      get_session_dir_safeId sid ≠ ".." →
      resolveComponents (sessionDirComponents sid) =
        ["temp", get_session_dir_safeId sid]) := by
  constructor
  · intro c hc
    have : c ∈ sid.data.filter (· ≠ '/') := hc
    have := List.of_mem_filter this
    simpa using this
  · intro h1 h2 h3
    simp only [resolveComponents, sessionDirComponents, List.foldl]
    rw [if_neg (by simp [h1, h2]), if_neg h3]
    simp

/-- **C10 (amended, witness).** The amended theorem applied to the
identifier `"abc/def"`, whose sanitized form is `"abcdef"`. -/
theorem session_dir_sanitized_witness :
    resolveComponents (sessionDirComponents "abc/def") =
      ["temp", get_session_dir_safeId "abc/def"] :=
  (session_dir_sanitized "abc/def").2 (by decide) (by decide) (by decide)

end Caption
